import Mathlib

/-!
Verification development for the `coe-schedule-extractor` repository
(`src/extract_schedule.py`, `src/load_schedule.py`).

The two Python modules are shallowly embedded here:

* environment variables become explicit configuration records of
  `Option String` fields, with Python truthiness (`if not x`) modelled by
  `truthy`;
* every external effect (SSH tunnel, database connection, SQL statement,
  S3 client construction and upload, file write) becomes an event in an
  explicit trace emitted by the embedded function, and points where the
  underlying library call may raise are modelled by a record of Booleans
  (one per fallible call site) that the functions branch on;
* `json.dumps` on the three-field record dictionaries and the line-based
  re-parse of the produced JSONL file are embedded character by character
  (including Python's default `ensure_ascii` escaping).
-/

/-- Python truthiness of an optional string (`if not x`): `None` and the
empty string are falsy, every other string is truthy. -/
def truthy : Option String → Bool
  | none => false
  | some s => !s.isEmpty

/-- Rendering of an optional string inside a Python f-string: `None`
renders as the text `"None"`. -/
def pyStr : Option String → String
  | none => "None"
  | some s => s

/-- Characters after the last `/` of a path. -/
def basenameChars (cs : List Char) : List Char :=
  cs.foldl (fun acc c => if c = '/' then [] else acc ++ [c]) []

/-- `os.path.basename` for POSIX paths: the part after the last `/`. -/
def os_path_basename (p : String) : String :=
  ⟨basenameChars p.data⟩

/-- `os.path.join dir name` for POSIX paths as used by the repository
(two components): absolute second component wins; otherwise insert a `/`
unless the first component is empty or already ends in `/`. -/
def os_path_join (a b : String) : String :=
  if b.data.head? = some '/' then b
  else if a.data = [] then b
  else if a.data.getLast? = some '/' then a ++ b
  else a ++ "/" ++ b

/-- Numeric value of a list of decimal digit characters (`int` applied to
the matched group). -/
def digitsVal (cs : List Char) : Nat :=
  cs.foldl (fun acc c => acc * 10 + (c.toNat - 48)) 0

/-- Embedding of `re.search(r'(\d{4})', s)`: scan left to right and return
the first window of four consecutive digit characters. -/
def findFourDigits : List Char → Option (List Char)
  | a :: b :: c :: d :: rest =>
    if a.isDigit && b.isDigit && c.isDigit && d.isDigit then some [a, b, c, d]
    else findFourDigits (b :: c :: d :: rest)
  | _ => none

/-- `extract_year_from_filename` (src/load_schedule.py): take the basename,
search it for the first four consecutive digits, and convert them with
`int`; `None` when there is no match. -/
def extract_year_from_filename (file_path : String) : Option Nat :=
  (findFourDigits (os_path_basename file_path).data).map digitsVal

/-- There are four consecutive digit characters of `cs` starting at
position `i`. -/
def fourDigitsAt (cs : List Char) (i : Nat) : Prop :=
  ((cs.drop i).take 4).length = 4 ∧ ∀ c ∈ (cs.drop i).take 4, c.isDigit = true

instance (cs : List Char) (i : Nat) : Decidable (fourDigitsAt cs i) := by
  unfold fourDigitsAt; infer_instance

/-- The number formed by the four characters of `cs` starting at `i`. -/
def fourDigitsValAt (cs : List Char) (i : Nat) : Nat :=
  digitsVal ((cs.drop i).take 4)

lemma fourDigitsAt_succ_cons (a : Char) (t : List Char) (i : Nat) :
    fourDigitsAt (a :: t) (i + 1) ↔ fourDigitsAt t i := by
  simp [fourDigitsAt]

lemma fourDigitsAt_le_length {cs : List Char} {i : Nat} (h : fourDigitsAt cs i) :
    i + 4 ≤ cs.length := by
  rcases h with ⟨hl, _⟩
  simp [List.length_take, List.length_drop] at hl
  omega

lemma fourDigitsAt_zero4 (a b c d : Char) (rest : List Char) :
    fourDigitsAt (a :: b :: c :: d :: rest) 0 ↔
      (a.isDigit && b.isDigit && c.isDigit && d.isDigit) = true := by
  simp [fourDigitsAt, and_assoc]

lemma findFourDigits_some_iff (cs : List Char) (v : List Char) :
    findFourDigits cs = some v ↔
      ∃ i, fourDigitsAt cs i ∧ (∀ j, j < i → ¬ fourDigitsAt cs j) ∧
        v = (cs.drop i).take 4 := by
  induction cs using findFourDigits.induct with
  | case1 a b c d rest h =>
    simp only [findFourDigits, h, if_true, Option.some.injEq]
    constructor
    · rintro rfl
      exact ⟨0, (fourDigitsAt_zero4 a b c d rest).mpr h, by omega, rfl⟩
    · rintro ⟨i, hi, hmin, rfl⟩
      have hi0 : i = 0 := by
        by_contra hne
        exact hmin 0 (by omega) ((fourDigitsAt_zero4 a b c d rest).mpr h)
      subst hi0; rfl
  | case2 a b c d rest h ih =>
    have h0 : ¬ fourDigitsAt (a :: b :: c :: d :: rest) 0 := fun hc =>
      h ((fourDigitsAt_zero4 a b c d rest).mp hc)
    simp only [findFourDigits, h, Bool.false_eq_true, if_false]
    rw [ih]
    constructor
    · rintro ⟨i, hi, hmin, rfl⟩
      refine ⟨i + 1, (fourDigitsAt_succ_cons a _ i).mpr hi, ?_, rfl⟩
      intro j hj
      match j with
      | 0 => exact h0
      | j' + 1 =>
        exact fun hc => hmin j' (by omega) ((fourDigitsAt_succ_cons a _ j').mp hc)
    · rintro ⟨i, hi, hmin, rfl⟩
      match i, hi with
      | 0, hi => exact absurd hi h0
      | i' + 1, hi =>
        refine ⟨i', (fourDigitsAt_succ_cons a _ i').mp hi, ?_, rfl⟩
        intro j hj
        exact fun hc => hmin (j + 1) (by omega) ((fourDigitsAt_succ_cons a _ j).mpr hc)
  | case3 cs h =>
    have hlen : cs.length < 4 := by
      rcases cs with _ | ⟨a, _ | ⟨b, _ | ⟨c, _ | ⟨d, rest⟩⟩⟩⟩
      · simp
      · simp
      · simp
      · simp
      · exact absurd rfl (h a b c d rest)
    have hnone : findFourDigits cs = none := by
      rcases cs with _ | ⟨a, _ | ⟨b, _ | ⟨c, _ | ⟨d, rest⟩⟩⟩⟩
      · rfl
      · rfl
      · rfl
      · rfl
      · exact absurd rfl (h a b c d rest)
    rw [hnone]
    simp only [false_iff, reduceCtorEq]
    rintro ⟨i, hi, -, -⟩
    have := fourDigitsAt_le_length hi
    omega

lemma findFourDigits_none_iff (cs : List Char) :
    findFourDigits cs = none ↔ ∀ i, ¬ fourDigitsAt cs i := by
  constructor
  · intro hn i hi
    have hex : ∃ j, fourDigitsAt cs j := ⟨i, hi⟩
    have hfind := Nat.find_spec hex
    have hmin := fun j (hj : j < Nat.find hex) => Nat.find_min hex hj
    have : findFourDigits cs = some ((cs.drop (Nat.find hex)).take 4) :=
      (findFourDigits_some_iff cs _).mpr ⟨Nat.find hex, hfind, hmin, rfl⟩
    rw [hn] at this
    exact Option.noConfusion this
  · intro hall
    cases hv : findFourDigits cs with
    | none => rfl
    | some v =>
      rcases (findFourDigits_some_iff cs v).mp hv with ⟨i, hi, -, -⟩
      exact absurd hi (hall i)

/-- Claim C4: `extract_year_from_filename` returns the integer value of the
first (leftmost) four consecutive digits of the base filename — directory
components are ignored — and `none` when the base filename has no four
consecutive digits; in particular it maps
`"COE_Bidding_Schedule_2025.jsonl"` to `2025` and `"data/schedule.jsonl"`
to `none`. -/
theorem extract_year_spec (p : String) :
    (∀ y, extract_year_from_filename p = some y ↔
      ∃ i, fourDigitsAt (os_path_basename p).data i ∧
        (∀ j, j < i → ¬ fourDigitsAt (os_path_basename p).data j) ∧
        y = fourDigitsValAt (os_path_basename p).data i) ∧
    (extract_year_from_filename p = none ↔
      ∀ i, ¬ fourDigitsAt (os_path_basename p).data i) ∧
    extract_year_from_filename "COE_Bidding_Schedule_2025.jsonl" = some 2025 ∧
    extract_year_from_filename "data/schedule.jsonl" = none := by
  refine ⟨?_, ?_, by decide, by decide⟩
  · intro y
    unfold extract_year_from_filename
    constructor
    · intro hy
      rcases Option.map_eq_some'.mp hy with ⟨v, hv, rfl⟩
      rcases (findFourDigits_some_iff _ v).mp hv with ⟨i, hi, hmin, rfl⟩
      exact ⟨i, hi, hmin, rfl⟩
    · rintro ⟨i, hi, hmin, rfl⟩
      have : findFourDigits (os_path_basename p).data =
          some (((os_path_basename p).data.drop i).take 4) :=
        (findFourDigits_some_iff _ _).mpr ⟨i, hi, hmin, rfl⟩
      rw [this]; rfl
  · unfold extract_year_from_filename
    rw [Option.map_eq_none', findFourDigits_none_iff]

/-- Load mode of the loader CLI (src/load_schedule.py, `LoadMode`). -/
inductive LoadMode
  | append
  | replace
deriving DecidableEq, Repr

/-- Environment configuration read by `upload_to_s3`: the bucket name and
(abstracted) credentials, plus one Boolean modelling whether the
`s3_client.upload_file` call succeeds or raises. -/
structure S3Env where
  bucket : Option String
  uploadOk : Bool
deriving DecidableEq, Repr

/-- Externally visible actions of `upload_to_s3`. -/
inductive S3Event
  | clientCreate
  | uploadAttempt (bucket object : String)
  | errorLog
deriving DecidableEq, Repr

/-- `upload_to_s3` (src/load_schedule.py): returns the S3 URI on success
and `none` otherwise, together with the trace of its externally visible
actions.  The bucket check (`if not bucket_name`) runs before the boto3
client is constructed. -/
def upload_to_s3 (env : S3Env) (file_path : String) : Option String × List S3Event :=
  if !truthy env.bucket then
    (none, [])
  else
    let bucket := pyStr env.bucket
    let object_name := "data/coe_bidding_schedule/" ++ os_path_basename file_path
    if env.uploadOk then
      (some ("s3://" ++ bucket ++ "/" ++ object_name),
        [.clientCreate, .uploadAttempt bucket object_name])
    else
      (none, [.clientCreate, .uploadAttempt bucket object_name, .errorLog])

/-- Environment configuration read by `load_to_redshift`. -/
structure RedshiftEnv where
  host : Option String
  dbname : Option String
  user : Option String
  password : Option String
  iam_role : Option String
  table : Option String
  ssh_host : Option String
  ssh_user : Option String
  ssh_key_path : Option String
deriving DecidableEq, Repr

/-- The configuration guard of `load_to_redshift`:
`if not all([host, dbname, user, password, iam_role])`. -/
def redshiftConfigOk (env : RedshiftEnv) : Bool :=
  truthy env.host && truthy env.dbname && truthy env.user &&
    truthy env.password && truthy env.iam_role

/-- The SSH-tunnel guard of `load_to_redshift`:
`if ssh_host and ssh_user and ssh_key_path`. -/
def sshNeeded (env : RedshiftEnv) : Bool :=
  truthy env.ssh_host && truthy env.ssh_user && truthy env.ssh_key_path

/-- One Boolean per fallible call site inside `load_to_redshift`’s `try`
block: `server.start()`, `psycopg2.connect`, and the `cur.execute`/
`conn.commit` statements.  `false` means the call raises. -/
structure FailSpec where
  tunnelOk : Bool
  connectOk : Bool
  createOk : Bool
  deleteOk : Bool
  copyOk : Bool
  commitOk : Bool
deriving DecidableEq, Repr

/-- Externally visible actions of `load_to_redshift`, in program order.
`deleteYear t y` stands for executing
`DELETE FROM t WHERE month LIKE '%y%'`, and `copy t p r` for the
`COPY t FROM 'p' IAM_ROLE 'r' FORMAT AS JSON 'auto' TIMEFORMAT 'auto'`
statement. -/
inductive DbEvent
  | configError
  | tunnelStart
  | connect
  | createTable (table : String)
  | deleteYear (table : String) (year : Nat)
  | warnNoYear
  | copy (table s3path iamRole : String)
  | commit
  | cursorClose
  | logError
  | connClose
  | tunnelStop
deriving DecidableEq, Repr

/-- The delete stage of `load_to_redshift` (`if mode == LoadMode.REPLACE:
if year: ... else: warning`).  Returns the emitted events and whether the
`cur.execute(delete_query)` call raised.  Python truthiness makes
`year = 0` take the warning branch. -/
def delStage (tbl : String) (fs : FailSpec) (mode : LoadMode) (year : Option Nat) :
    List DbEvent × Bool :=
  match mode, year with
  | .replace, some y =>
    if y = 0 then ([.warnNoYear], false)
    else if fs.deleteOk then ([.deleteYear tbl y], false)
    else ([], true)
  | .replace, none => ([.warnNoYear], false)
  | .append, _ => ([], false)

/-- The `try` block of `load_to_redshift`: tunnel (when configured),
connect, create table, optional delete, copy, commit, cursor close.
Returns the events emitted inside the block, whether `conn` was assigned
(so that `finally` will close it), and whether the block raised. -/
def loadTry (env : RedshiftEnv) (fs : FailSpec) (s3_path : String)
    (mode : LoadMode) (year : Option Nat) : List DbEvent × Bool × Bool :=
  let tbl := pyStr env.table
  if sshNeeded env && !fs.tunnelOk then ([], false, true)
  else
    let pre := if sshNeeded env then [DbEvent.tunnelStart] else []
    if !fs.connectOk then (pre, false, true)
    else if !fs.createOk then (pre ++ [.connect], true, true)
    else
      match delStage tbl fs mode year with
      | (devs, true) => (pre ++ [.connect, .createTable tbl] ++ devs, true, true)
      | (devs, false) =>
        if !fs.copyOk then
          (pre ++ [.connect, .createTable tbl] ++ devs, true, true)
        else if !fs.commitOk then
          (pre ++ [.connect, .createTable tbl] ++ devs ++
            [.copy tbl s3_path (pyStr env.iam_role)], true, true)
        else
          (pre ++ [.connect, .createTable tbl] ++ devs ++
            [.copy tbl s3_path (pyStr env.iam_role), .commit, .cursorClose],
            true, false)

/-- `load_to_redshift` (src/load_schedule.py): configuration guard, then
the `try` block, then `except Exception` (log, swallow) and `finally`
(`conn.close()` when `conn` was assigned, `server.stop()` when the tunnel
forwarder was constructed, i.e. exactly when the SSH variables are set). -/
def load_to_redshift (env : RedshiftEnv) (fs : FailSpec) (s3_path : String)
    (mode : LoadMode) (year : Option Nat) : List DbEvent :=
  if !redshiftConfigOk env then [.configError]
  else
    match loadTry env fs s3_path mode year with
    | (evs, connOpened, raised) =>
      evs ++ (if raised then [DbEvent.logError] else [])
        ++ (if connOpened then [DbEvent.connClose] else [])
        ++ (if sshNeeded env then [DbEvent.tunnelStop] else [])

/-- Boolean prefix test on character lists. -/
def isPrefixSeq : List Char → List Char → Bool
  | [], _ => true
  | _ :: _, [] => false
  | a :: as, b :: bs => a = b && isPrefixSeq as bs

/-- Boolean substring test on character lists (the semantics of SQL
`LIKE '%needle%'`). -/
def containsSeq (needle : List Char) : List Char → Bool
  | [] => needle.isEmpty
  | b :: bs => isPrefixSeq needle (b :: bs) || containsSeq needle bs

/-- One row of the warehouse table (fixed three-column schema of the
`CREATE TABLE` statement in `load_to_redshift`). -/
structure TableRow where
  month : String
  exercise_start_datetime : String
  exercise_end_datetime : String
deriving DecidableEq, Repr

/-- Effect of the statement `DELETE FROM t WHERE month LIKE '%y%'` on the
rows of the table: keep exactly the rows whose `month` does not contain
the digits of `y` as a substring. -/
def deleteYearRows (y : Nat) (rows : List TableRow) : List TableRow :=
  rows.filter (fun r => !containsSeq (toString y).data r.month.data)

lemma isPrefixSeq_iff (needle hay : List Char) :
    isPrefixSeq needle hay = true ↔ ∃ t, hay = needle ++ t := by
  induction needle generalizing hay with
  | nil => simp [isPrefixSeq]
  | cons a as ih =>
    cases hay with
    | nil => simp [isPrefixSeq]
    | cons b bs =>
      simp only [isPrefixSeq, Bool.and_eq_true, decide_eq_true_eq, ih,
        List.cons_append, List.cons.injEq]
      constructor
      · rintro ⟨rfl, t, rfl⟩; exact ⟨t, rfl, rfl⟩
      · rintro ⟨t, rfl, rfl⟩; exact ⟨rfl, t, rfl⟩

lemma containsSeq_iff (needle hay : List Char) :
    containsSeq needle hay = true ↔ ∃ pre post, hay = pre ++ needle ++ post := by
  induction hay with
  | nil =>
    simp only [containsSeq, List.isEmpty_iff]
    constructor
    · rintro rfl; exact ⟨[], [], rfl⟩
    · rintro ⟨pre, post, h⟩
      rcases List.append_eq_nil.mp (List.append_eq_nil.mp h.symm).1 with ⟨-, h2⟩
      exact h2
  | cons b bs ih =>
    simp only [containsSeq, Bool.or_eq_true, isPrefixSeq_iff, ih]
    constructor
    · rintro (⟨t, ht⟩ | ⟨pre, post, hp⟩)
      · exact ⟨[], t, by simpa using ht⟩
      · exact ⟨b :: pre, post, by simp [hp]⟩
    · rintro ⟨pre, post, hp⟩
      cases pre with
      | nil => exact Or.inl ⟨post, by simpa using hp⟩
      | cons p ps =>
        simp only [List.cons_append, List.cons.injEq] at hp
        exact Or.inr ⟨ps, post, hp.2⟩

/-- Membership characterisation of the replace-mode delete: a row survives
iff it was present and its `month` does not textually contain the digits
of the year. -/
lemma mem_deleteYearRows (y : Nat) (rows : List TableRow) (r : TableRow) :
    r ∈ deleteYearRows y rows ↔
      r ∈ rows ∧ ¬ ∃ pre post, r.month.data = pre ++ (toString y).data ++ post := by
  simp only [deleteYearRows, List.mem_filter, Bool.not_eq_true',
    ← containsSeq_iff, Bool.not_eq_true]

/-- Events emitted by the tunnel-establishment step. -/
def tunnelPre (env : RedshiftEnv) : List DbEvent :=
  if sshNeeded env then [DbEvent.tunnelStart] else []

lemma loadTry_shape (env : RedshiftEnv) (fs : FailSpec) (s3 : String)
    (mode : LoadMode) (year : Option Nat) :
    ((sshNeeded env && !fs.tunnelOk) = true ∧
      loadTry env fs s3 mode year = ([], false, true)) ∨
    ((sshNeeded env && !fs.tunnelOk) = false ∧ fs.connectOk = false ∧
      loadTry env fs s3 mode year = (tunnelPre env, false, true)) ∨
    ((sshNeeded env && !fs.tunnelOk) = false ∧ fs.connectOk = true ∧
      fs.createOk = false ∧
      loadTry env fs s3 mode year = (tunnelPre env ++ [.connect], true, true)) ∨
    ((sshNeeded env && !fs.tunnelOk) = false ∧ fs.connectOk = true ∧
      fs.createOk = true ∧
      ∃ devs, delStage (pyStr env.table) fs mode year = (devs, true) ∧
        loadTry env fs s3 mode year =
          (tunnelPre env ++ [.connect, .createTable (pyStr env.table)] ++ devs,
            true, true)) ∨
    ((sshNeeded env && !fs.tunnelOk) = false ∧ fs.connectOk = true ∧
      fs.createOk = true ∧ fs.copyOk = false ∧
      ∃ devs, delStage (pyStr env.table) fs mode year = (devs, false) ∧
        loadTry env fs s3 mode year =
          (tunnelPre env ++ [.connect, .createTable (pyStr env.table)] ++ devs,
            true, true)) ∨
    ((sshNeeded env && !fs.tunnelOk) = false ∧ fs.connectOk = true ∧
      fs.createOk = true ∧ fs.copyOk = true ∧ fs.commitOk = false ∧
      ∃ devs, delStage (pyStr env.table) fs mode year = (devs, false) ∧
        loadTry env fs s3 mode year =
          (tunnelPre env ++ [.connect, .createTable (pyStr env.table)] ++ devs ++
            [.copy (pyStr env.table) s3 (pyStr env.iam_role)], true, true)) ∨
    ((sshNeeded env && !fs.tunnelOk) = false ∧ fs.connectOk = true ∧
      fs.createOk = true ∧ fs.copyOk = true ∧ fs.commitOk = true ∧
      ∃ devs, delStage (pyStr env.table) fs mode year = (devs, false) ∧
        loadTry env fs s3 mode year =
          (tunnelPre env ++ [.connect, .createTable (pyStr env.table)] ++ devs ++
            [.copy (pyStr env.table) s3 (pyStr env.iam_role), .commit,
              .cursorClose], true, false)) := by
  unfold loadTry
  cases hA : (sshNeeded env && !fs.tunnelOk) with
  | true => exact Or.inl ⟨rfl, by simp⟩
  | false =>
    cases hc : fs.connectOk with
    | false =>
      refine Or.inr (Or.inl ⟨rfl, rfl, ?_⟩)
      simp [tunnelPre, hc]
    | true =>
      cases hcr : fs.createOk with
      | false =>
        refine Or.inr (Or.inr (Or.inl ⟨rfl, rfl, rfl, ?_⟩))
        simp [tunnelPre, hc, hcr]
      | true =>
        rcases hd : delStage (pyStr env.table) fs mode year with ⟨devs, rb⟩
        cases rb with
        | true =>
          refine Or.inr (Or.inr (Or.inr (Or.inl ⟨rfl, rfl, rfl, devs, rfl, ?_⟩)))
          simp [tunnelPre, hc, hcr, hd]
        | false =>
          cases hcp : fs.copyOk with
          | false =>
            refine Or.inr (Or.inr (Or.inr (Or.inr (Or.inl
              ⟨rfl, rfl, rfl, rfl, devs, rfl, ?_⟩))))
            simp [tunnelPre, hc, hcr, hd, hcp]
          | true =>
            cases hcm : fs.commitOk with
            | false =>
              refine Or.inr (Or.inr (Or.inr (Or.inr (Or.inr (Or.inl
                ⟨rfl, rfl, rfl, rfl, rfl, devs, rfl, ?_⟩)))))
              simp [tunnelPre, hc, hcr, hd, hcp, hcm]
            | true =>
              refine Or.inr (Or.inr (Or.inr (Or.inr (Or.inr (Or.inr
                ⟨rfl, rfl, rfl, rfl, rfl, devs, rfl, ?_⟩)))))
              simp [tunnelPre, hc, hcr, hd, hcp, hcm]

lemma delStage_append (tbl : String) (fs : FailSpec) (year : Option Nat) :
    delStage tbl fs .append year = ([], false) := by
  cases year <;> rfl

lemma delStage_replace_none (tbl : String) (fs : FailSpec) :
    delStage tbl fs .replace none = ([.warnNoYear], false) := rfl

lemma delStage_replace_zero (tbl : String) (fs : FailSpec) :
    delStage tbl fs .replace (some 0) = ([.warnNoYear], false) := by
  simp [delStage]

lemma delStage_replace_pos (tbl : String) (fs : FailSpec) {y : Nat}
    (hy : y ≠ 0) (hok : fs.deleteOk = true) :
    delStage tbl fs .replace (some y) = ([.deleteYear tbl y], false) := by
  simp [delStage, hy, hok]

lemma delStage_events (tbl : String) (fs : FailSpec) (mode : LoadMode)
    (year : Option Nat) {devs : List DbEvent} {rb : Bool}
    (h : delStage tbl fs mode year = (devs, rb)) :
    devs = [] ∨ devs = [.warnNoYear] ∨
      ∃ y, year = some y ∧ mode = .replace ∧ devs = [.deleteYear tbl y] := by
  cases mode with
  | append =>
    rw [delStage_append] at h
    cases h; exact Or.inl rfl
  | replace =>
    cases year with
    | none => rw [delStage_replace_none] at h; cases h; exact Or.inr (Or.inl rfl)
    | some y =>
      by_cases hy : y = 0
      · subst hy; rw [delStage_replace_zero] at h; cases h
        exact Or.inr (Or.inl rfl)
      · cases hok : fs.deleteOk with
        | true =>
          rw [delStage_replace_pos tbl fs hy hok] at h; cases h
          exact Or.inr (Or.inr ⟨y, rfl, rfl, rfl⟩)
        | false =>
          simp [delStage, hy, hok] at h
          cases h.1; exact Or.inl rfl

lemma load_trace_eq (env : RedshiftEnv) (fs : FailSpec) (s3 : String)
    (mode : LoadMode) (year : Option Nat) {evs : List DbEvent}
    {co ra : Bool} (hcfg : redshiftConfigOk env = true)
    (h : loadTry env fs s3 mode year = (evs, co, ra)) :
    load_to_redshift env fs s3 mode year =
      evs ++ (if ra then [DbEvent.logError] else [])
        ++ (if co then [DbEvent.connClose] else [])
        ++ (if sshNeeded env then [DbEvent.tunnelStop] else []) := by
  simp [load_to_redshift, hcfg, h]

lemma load_trace_noCfg (env : RedshiftEnv) (fs : FailSpec) (s3 : String)
    (mode : LoadMode) (year : Option Nat)
    (hcfg : redshiftConfigOk env = false) :
    load_to_redshift env fs s3 mode year = [.configError] := by
  simp [load_to_redshift, hcfg]

lemma pair_sublist_of_mem {α : Type} {a b : α} {l1 l2 : List α}
    (ha : a ∈ l1) : List.Sublist [a, b] (l1 ++ b :: l2) :=
  (List.singleton_sublist.mpr ha).append (List.sublist_append_left [b] l2)

lemma connect_closes_of_mem {env : RedshiftEnv} {fs : FailSpec} {s3 : String}
    {mode : LoadMode} {year : Option Nat} {evs : List DbEvent} {ra : Bool}
    (hcfg : redshiftConfigOk env = true)
    (hL : loadTry env fs s3 mode year = (evs, true, ra))
    (hc : DbEvent.connect ∈ evs) :
    List.Sublist [DbEvent.connect, DbEvent.connClose]
      (load_to_redshift env fs s3 mode year) := by
  rw [load_trace_eq env fs s3 mode year hcfg hL]
  have h2 : DbEvent.connect ∈ evs ++ (if ra then [DbEvent.logError] else []) :=
    List.mem_append_left _ hc
  have h3 := @pair_sublist_of_mem DbEvent DbEvent.connect DbEvent.connClose
    (evs ++ (if ra then [DbEvent.logError] else []))
    (if sshNeeded env then [DbEvent.tunnelStop] else []) h2
  simpa [List.append_assoc] using h3

lemma tunnel_closes_of_mem {env : RedshiftEnv} {fs : FailSpec} {s3 : String}
    {mode : LoadMode} {year : Option Nat} {evs : List DbEvent} {co ra : Bool}
    (hcfg : redshiftConfigOk env = true)
    (hL : loadTry env fs s3 mode year = (evs, co, ra))
    (hssh : sshNeeded env = true)
    (ht : DbEvent.tunnelStart ∈ evs) :
    List.Sublist [DbEvent.tunnelStart, DbEvent.tunnelStop]
      (load_to_redshift env fs s3 mode year) := by
  rw [load_trace_eq env fs s3 mode year hcfg hL]
  have h2 : DbEvent.tunnelStart ∈
      evs ++ (if ra then [DbEvent.logError] else [])
        ++ (if co then [DbEvent.connClose] else []) :=
    List.mem_append_left _ (List.mem_append_left _ ht)
  have h3 := @pair_sublist_of_mem DbEvent DbEvent.tunnelStart DbEvent.tunnelStop
    (evs ++ (if ra then [DbEvent.logError] else [])
      ++ (if co then [DbEvent.connClose] else []))
    ([] : List DbEvent) h2
  simpa [hssh, List.append_assoc] using h3

/-- Claim C2: On every execution of `load_to_redshift` — for every
configuration and every combination of raising/non-raising call sites —
if a database connection was opened then it is closed later in the trace,
and if an SSH tunnel was started then it is stopped later in the trace;
so both resources are released on every exit path before the function
returns. -/
theorem load_to_redshift_closes_resources (env : RedshiftEnv) (fs : FailSpec)
    (s3 : String) (mode : LoadMode) (year : Option Nat) :
    (DbEvent.connect ∈ load_to_redshift env fs s3 mode year →
      List.Sublist [DbEvent.connect, DbEvent.connClose]
        (load_to_redshift env fs s3 mode year)) ∧
    (DbEvent.tunnelStart ∈ load_to_redshift env fs s3 mode year →
      List.Sublist [DbEvent.tunnelStart, DbEvent.tunnelStop]
        (load_to_redshift env fs s3 mode year)) := by
  cases hcfg : redshiftConfigOk env with
  | false =>
    rw [load_trace_noCfg env fs s3 mode year hcfg]
    constructor <;> intro hmem <;> simp at hmem
  | true =>
    constructor <;> intro hmem <;>
      rcases loadTry_shape env fs s3 mode year with
        ⟨hA, hL⟩ | ⟨hA, hc, hL⟩ | ⟨hA, hc, hcr, hL⟩ |
        ⟨hA, hc, hcr, devs, hd, hL⟩ | ⟨hA, hc, hcr, hcp, devs, hd, hL⟩ |
        ⟨hA, hc, hcr, hcp, hcm, devs, hd, hL⟩ |
        ⟨hA, hc, hcr, hcp, hcm, devs, hd, hL⟩
    · rw [load_trace_eq env fs s3 mode year hcfg hL] at hmem
      cases hssh : sshNeeded env <;> simp [hssh] at hmem
    · rw [load_trace_eq env fs s3 mode year hcfg hL] at hmem
      cases hssh : sshNeeded env <;> simp [hssh, tunnelPre] at hmem
    · exact connect_closes_of_mem hcfg hL (by simp)
    · exact connect_closes_of_mem hcfg hL (by simp)
    · exact connect_closes_of_mem hcfg hL (by simp)
    · exact connect_closes_of_mem hcfg hL (by simp)
    · exact connect_closes_of_mem hcfg hL (by simp)
    · rw [load_trace_eq env fs s3 mode year hcfg hL] at hmem
      cases hssh : sshNeeded env <;> simp [hssh] at hmem
    · cases hssh : sshNeeded env with
      | false =>
        rw [load_trace_eq env fs s3 mode year hcfg hL] at hmem
        simp [hssh, tunnelPre] at hmem
      | true => exact tunnel_closes_of_mem hcfg hL hssh (by simp [tunnelPre, hssh])
    · cases hssh : sshNeeded env with
      | false =>
        rw [load_trace_eq env fs s3 mode year hcfg hL] at hmem
        simp [hssh, tunnelPre] at hmem
      | true => exact tunnel_closes_of_mem hcfg hL hssh (by simp [tunnelPre, hssh])
    · cases hssh : sshNeeded env with
      | false =>
        rw [load_trace_eq env fs s3 mode year hcfg hL] at hmem
        rcases delStage_events _ _ _ _ hd with h | h | ⟨y, -, -, h⟩ <;>
          simp [hssh, tunnelPre, h] at hmem
      | true => exact tunnel_closes_of_mem hcfg hL hssh (by simp [tunnelPre, hssh])
    · cases hssh : sshNeeded env with
      | false =>
        rw [load_trace_eq env fs s3 mode year hcfg hL] at hmem
        rcases delStage_events _ _ _ _ hd with h | h | ⟨y, -, -, h⟩ <;>
          simp [hssh, tunnelPre, h] at hmem
      | true => exact tunnel_closes_of_mem hcfg hL hssh (by simp [tunnelPre, hssh])
    · cases hssh : sshNeeded env with
      | false =>
        rw [load_trace_eq env fs s3 mode year hcfg hL] at hmem
        rcases delStage_events _ _ _ _ hd with h | h | ⟨y, -, -, h⟩ <;>
          simp [hssh, tunnelPre, h] at hmem
      | true => exact tunnel_closes_of_mem hcfg hL hssh (by simp [tunnelPre, hssh])
    · cases hssh : sshNeeded env with
      | false =>
        rw [load_trace_eq env fs s3 mode year hcfg hL] at hmem
        rcases delStage_events _ _ _ _ hd with h | h | ⟨y, -, -, h⟩ <;>
          simp [hssh, tunnelPre, h] at hmem
      | true => exact tunnel_closes_of_mem hcfg hL hssh (by simp [tunnelPre, hssh])

lemma sublist_surround {α : Type} (pre l post : List α) :
    List.Sublist l (pre ++ l ++ post) := by
  have h2 := (List.nil_sublist pre).append (List.sublist_append_left l post)
  rw [List.append_assoc]
  exact h2

/-- Claim C3: `load_to_redshift` commits only after the bulk-copy statement
succeeded (every commit event is preceded by a successful `COPY`); when
any statement of the `try` block raises, no commit is issued and the
exception is logged — and an error is logged exactly when the `try` block
raised, the function swallowing the exception and returning normally. -/
theorem load_to_redshift_commit_discipline (env : RedshiftEnv) (fs : FailSpec)
    (s3 : String) (mode : LoadMode) (year : Option Nat) :
    (DbEvent.commit ∈ load_to_redshift env fs s3 mode year →
      List.Sublist
        [DbEvent.copy (pyStr env.table) s3 (pyStr env.iam_role), DbEvent.commit]
        (load_to_redshift env fs s3 mode year)) ∧
    (DbEvent.logError ∈ load_to_redshift env fs s3 mode year →
      DbEvent.commit ∉ load_to_redshift env fs s3 mode year) ∧
    (DbEvent.logError ∈ load_to_redshift env fs s3 mode year ↔
      redshiftConfigOk env = true ∧
        (loadTry env fs s3 mode year).2.2 = true) := by
  cases hcfg : redshiftConfigOk env with
  | false =>
    rw [load_trace_noCfg env fs s3 mode year hcfg]
    refine ⟨?_, ?_, ?_⟩ <;> simp
  | true =>
    refine ⟨?_, ?_, ?_⟩ <;>
      rcases loadTry_shape env fs s3 mode year with
        ⟨hA, hL⟩ | ⟨hA, hc, hL⟩ | ⟨hA, hc, hcr, hL⟩ |
        ⟨hA, hc, hcr, devs, hd, hL⟩ | ⟨hA, hc, hcr, hcp, devs, hd, hL⟩ |
        ⟨hA, hc, hcr, hcp, hcm, devs, hd, hL⟩ |
        ⟨hA, hc, hcr, hcp, hcm, devs, hd, hL⟩ <;>
      rw [load_trace_eq env fs s3 mode year hcfg hL]
    · intro hmem; cases hssh : sshNeeded env <;> simp [hssh] at hmem
    · intro hmem
      cases hssh : sshNeeded env <;> simp [hssh, tunnelPre] at hmem
    · intro hmem; cases hssh : sshNeeded env <;> simp [hssh, tunnelPre] at hmem
    · intro hmem
      rcases delStage_events _ _ _ _ hd with h | h | ⟨y, -, -, h⟩ <;>
        cases hssh : sshNeeded env <;> simp [hssh, tunnelPre, h] at hmem
    · intro hmem
      rcases delStage_events _ _ _ _ hd with h | h | ⟨y, -, -, h⟩ <;>
        cases hssh : sshNeeded env <;> simp [hssh, tunnelPre, h] at hmem
    · intro hmem
      rcases delStage_events _ _ _ _ hd with h | h | ⟨y, -, -, h⟩ <;>
        cases hssh : sshNeeded env <;> simp [hssh, tunnelPre, h] at hmem
    · intro hmem
      have := sublist_surround
        (tunnelPre env ++ [DbEvent.connect, DbEvent.createTable (pyStr env.table)]
          ++ devs)
        [DbEvent.copy (pyStr env.table) s3 (pyStr env.iam_role), DbEvent.commit]
        ([DbEvent.cursorClose] ++ [DbEvent.connClose]
          ++ (if sshNeeded env then [DbEvent.tunnelStop] else []))
      simpa [List.append_assoc] using this
    · intro hmem
      cases hssh : sshNeeded env <;> simp [hssh, tunnelPre]
    · intro hmem
      cases hssh : sshNeeded env <;> simp [hssh, tunnelPre]
    · intro hmem
      cases hssh : sshNeeded env <;> simp [hssh, tunnelPre]
    · intro hmem
      rcases delStage_events _ _ _ _ hd with h | h | ⟨y, -, -, h⟩ <;>
        cases hssh : sshNeeded env <;> simp [hssh, tunnelPre, h]
    · intro hmem
      rcases delStage_events _ _ _ _ hd with h | h | ⟨y, -, -, h⟩ <;>
        cases hssh : sshNeeded env <;> simp [hssh, tunnelPre, h]
    · intro hmem
      rcases delStage_events _ _ _ _ hd with h | h | ⟨y, -, -, h⟩ <;>
        cases hssh : sshNeeded env <;> simp [hssh, tunnelPre, h]
    · intro hmem
      rcases delStage_events _ _ _ _ hd with h | h | ⟨y, -, -, h⟩ <;>
        cases hssh : sshNeeded env <;> simp [hssh, tunnelPre, h] at hmem
    · cases hssh : sshNeeded env <;> simp [hssh, tunnelPre, hL, hcfg]
    · cases hssh : sshNeeded env <;> simp [hssh, tunnelPre, hL, hcfg]
    · cases hssh : sshNeeded env <;> simp [hssh, tunnelPre, hL, hcfg]
    · rcases delStage_events _ _ _ _ hd with h | h | ⟨y, -, -, h⟩ <;>
        cases hssh : sshNeeded env <;> simp [hssh, tunnelPre, h, hL, hcfg]
    · rcases delStage_events _ _ _ _ hd with h | h | ⟨y, -, -, h⟩ <;>
        cases hssh : sshNeeded env <;> simp [hssh, tunnelPre, h, hL, hcfg]
    · rcases delStage_events _ _ _ _ hd with h | h | ⟨y, -, -, h⟩ <;>
        cases hssh : sshNeeded env <;> simp [hssh, tunnelPre, h, hL, hcfg]
    · rcases delStage_events _ _ _ _ hd with h | h | ⟨y, -, -, h⟩ <;>
        cases hssh : sshNeeded env <;> simp [hssh, tunnelPre, h, hL, hcfg]

/-- A fully configured environment without SSH tunnelling, used to
instantiate the loader theorems at concrete inputs. -/
def sampleRedshiftEnv : RedshiftEnv :=
  ⟨some "h", some "db", some "u", some "pw", some "role", some "coe",
    none, none, none⟩

/-- A fully configured environment with SSH tunnelling. -/
def sampleRedshiftEnvSsh : RedshiftEnv :=
  ⟨some "h", some "db", some "u", some "pw", some "role", some "coe",
    some "bastion", some "ec2-user", some "/k.pem"⟩

/-- The failure specification in which every call site succeeds. -/
def allCallsOk : FailSpec := ⟨true, true, true, true, true, true⟩

/-- Claim C1, counterexample: Calling the loader in `replace` mode with the
supplied year `0` (as produced by `extract_year_from_filename` on a
filename containing `0000`): because the code guards the delete with
Python truthiness (`if year:`), no DELETE is executed even though a year
was supplied — the warning branch runs and the load proceeds. -/
theorem load_replace_year_zero_skips_delete :
    load_to_redshift sampleRedshiftEnv allCallsOk "s3://b/k" .replace (some 0) =
      [.connect, .createTable "coe", .warnNoYear, .copy "coe" "s3://b/k" "role",
        .commit, .cursorClose, .connClose] ∧
    DbEvent.deleteYear "coe" 0 ∉
      load_to_redshift sampleRedshiftEnv allCallsOk "s3://b/k" .replace (some 0) ∧
    DbEvent.warnNoYear ∈
      load_to_redshift sampleRedshiftEnv allCallsOk "s3://b/k" .replace (some 0) := by
  refine ⟨by decide, by decide, by decide⟩

/-- Claim C1, amended: The replace-mode delete of `load_to_redshift`:
(1) the statement `DELETE FROM t WHERE month LIKE '%y%'` removes exactly
the rows whose `month` textually contains the digits of `y`;
(2) in `replace` mode with a supplied non-zero year, on any run that
reaches the bulk copy, the delete is issued before the copy;
(3) in `append` mode no delete is ever issued, whatever year is supplied;
(4) in `replace` mode with no year supplied — or with year `0`, which
Python truthiness treats as absent — no delete is issued, a warning is
emitted, and the load still proceeds to the copy. -/
theorem load_replace_delete_spec (env : RedshiftEnv) (fs : FailSpec)
    (s3 : String) :
    (∀ (y : Nat) (rows : List TableRow) (r : TableRow),
      r ∈ deleteYearRows y rows ↔
        r ∈ rows ∧ ¬ ∃ pre post, r.month.data = pre ++ (toString y).data ++ post) ∧
    (∀ y : Nat, y ≠ 0 →
      redshiftConfigOk env = true →
      (sshNeeded env && !fs.tunnelOk) = false →
      fs.connectOk = true → fs.createOk = true → fs.deleteOk = true →
      fs.copyOk = true →
      List.Sublist
        [DbEvent.deleteYear (pyStr env.table) y,
          DbEvent.copy (pyStr env.table) s3 (pyStr env.iam_role)]
        (load_to_redshift env fs s3 .replace (some y))) ∧
    (∀ (year : Option Nat) (t : String) (y' : Nat),
      DbEvent.deleteYear t y' ∉ load_to_redshift env fs s3 .append year) ∧
    (∀ year : Option Nat, (year = none ∨ year = some 0) →
      (∀ (t : String) (y' : Nat),
        DbEvent.deleteYear t y' ∉ load_to_redshift env fs s3 .replace year) ∧
      (redshiftConfigOk env = true →
        (sshNeeded env && !fs.tunnelOk) = false →
        fs.connectOk = true → fs.createOk = true →
        DbEvent.warnNoYear ∈ load_to_redshift env fs s3 .replace year ∧
        (fs.copyOk = true →
          DbEvent.copy (pyStr env.table) s3 (pyStr env.iam_role) ∈
            load_to_redshift env fs s3 .replace year))) := by
  refine ⟨fun y rows r => mem_deleteYearRows y rows r, ?_, ?_, ?_⟩
  · -- (2): delete before copy on runs reaching the copy
    intro y hy hcfg hA hc hcr hdel hcp
    rcases loadTry_shape env fs s3 .replace (some y) with
      ⟨hA2, hL⟩ | ⟨hA2, hc2, hL⟩ | ⟨hA2, hc2, hcr2, hL⟩ |
      ⟨hA2, hc2, hcr2, devs, hd, hL⟩ | ⟨hA2, hc2, hcr2, hcp2, devs, hd, hL⟩ |
      ⟨hA2, hc2, hcr2, hcp2, hcm2, devs, hd, hL⟩ |
      ⟨hA2, hc2, hcr2, hcp2, hcm2, devs, hd, hL⟩
    · rw [hA] at hA2; exact absurd hA2 (by simp)
    · rw [hc] at hc2; exact absurd hc2 (by simp)
    · rw [hcr] at hcr2; exact absurd hcr2 (by simp)
    · rw [delStage_replace_pos (pyStr env.table) fs hy hdel] at hd
      exact absurd (congrArg Prod.snd hd) (by simp)
    · rw [hcp] at hcp2; exact absurd hcp2 (by simp)
    · rw [delStage_replace_pos (pyStr env.table) fs hy hdel] at hd
      have hdevs : devs = [DbEvent.deleteYear (pyStr env.table) y] :=
        (congrArg Prod.fst hd).symm
      subst hdevs
      rw [load_trace_eq env fs s3 .replace (some y) hcfg hL]
      have := sublist_surround
        (tunnelPre env ++ [DbEvent.connect, DbEvent.createTable (pyStr env.table)])
        [DbEvent.deleteYear (pyStr env.table) y,
          DbEvent.copy (pyStr env.table) s3 (pyStr env.iam_role)]
        ([DbEvent.logError] ++ [DbEvent.connClose]
          ++ (if sshNeeded env then [DbEvent.tunnelStop] else []))
      simpa [List.append_assoc] using this
    · rw [delStage_replace_pos (pyStr env.table) fs hy hdel] at hd
      have hdevs : devs = [DbEvent.deleteYear (pyStr env.table) y] :=
        (congrArg Prod.fst hd).symm
      subst hdevs
      rw [load_trace_eq env fs s3 .replace (some y) hcfg hL]
      have := sublist_surround
        (tunnelPre env ++ [DbEvent.connect, DbEvent.createTable (pyStr env.table)])
        [DbEvent.deleteYear (pyStr env.table) y,
          DbEvent.copy (pyStr env.table) s3 (pyStr env.iam_role)]
        ([DbEvent.commit, DbEvent.cursorClose] ++ [DbEvent.connClose]
          ++ (if sshNeeded env then [DbEvent.tunnelStop] else []))
      simpa [List.append_assoc] using this
  · -- (3): append mode never deletes
    intro year t y'
    cases hcfg : redshiftConfigOk env with
    | false => rw [load_trace_noCfg env fs s3 .append year hcfg]; simp
    | true =>
      rcases loadTry_shape env fs s3 .append year with
        ⟨hA2, hL⟩ | ⟨hA2, hc2, hL⟩ | ⟨hA2, hc2, hcr2, hL⟩ |
        ⟨hA2, hc2, hcr2, devs, hd, hL⟩ | ⟨hA2, hc2, hcr2, hcp2, devs, hd, hL⟩ |
        ⟨hA2, hc2, hcr2, hcp2, hcm2, devs, hd, hL⟩ |
        ⟨hA2, hc2, hcr2, hcp2, hcm2, devs, hd, hL⟩ <;>
        rw [load_trace_eq env fs s3 .append year hcfg hL]
      · cases hssh : sshNeeded env <;> simp [hssh]
      · cases hssh : sshNeeded env <;> simp [hssh, tunnelPre]
      · cases hssh : sshNeeded env <;> simp [hssh, tunnelPre]
      · rw [delStage_append] at hd
        exact absurd (congrArg Prod.snd hd) (by simp)
      · rw [delStage_append] at hd
        have hdevs : devs = [] := (congrArg Prod.fst hd).symm
        subst hdevs
        cases hssh : sshNeeded env <;> simp [hssh, tunnelPre]
      · rw [delStage_append] at hd
        have hdevs : devs = [] := (congrArg Prod.fst hd).symm
        subst hdevs
        cases hssh : sshNeeded env <;> simp [hssh, tunnelPre]
      · rw [delStage_append] at hd
        have hdevs : devs = [] := (congrArg Prod.fst hd).symm
        subst hdevs
        cases hssh : sshNeeded env <;> simp [hssh, tunnelPre]
  · -- (4): replace mode without a truthy year
    intro year hyear
    have hds : delStage (pyStr env.table) fs .replace year = ([.warnNoYear], false) := by
      rcases hyear with rfl | rfl
      · exact delStage_replace_none _ fs
      · exact delStage_replace_zero _ fs
    constructor
    · intro t y'
      cases hcfg : redshiftConfigOk env with
      | false => rw [load_trace_noCfg env fs s3 .replace year hcfg]; simp
      | true =>
        rcases loadTry_shape env fs s3 .replace year with
          ⟨hA2, hL⟩ | ⟨hA2, hc2, hL⟩ | ⟨hA2, hc2, hcr2, hL⟩ |
          ⟨hA2, hc2, hcr2, devs, hd, hL⟩ | ⟨hA2, hc2, hcr2, hcp2, devs, hd, hL⟩ |
          ⟨hA2, hc2, hcr2, hcp2, hcm2, devs, hd, hL⟩ |
          ⟨hA2, hc2, hcr2, hcp2, hcm2, devs, hd, hL⟩ <;>
          rw [load_trace_eq env fs s3 .replace year hcfg hL]
        · cases hssh : sshNeeded env <;> simp [hssh]
        · cases hssh : sshNeeded env <;> simp [hssh, tunnelPre]
        · cases hssh : sshNeeded env <;> simp [hssh, tunnelPre]
        · rw [hds] at hd
          exact absurd (congrArg Prod.snd hd) (by simp)
        · rw [hds] at hd
          have hdevs : devs = [.warnNoYear] := (congrArg Prod.fst hd).symm
          subst hdevs
          cases hssh : sshNeeded env <;> simp [hssh, tunnelPre]
        · rw [hds] at hd
          have hdevs : devs = [.warnNoYear] := (congrArg Prod.fst hd).symm
          subst hdevs
          cases hssh : sshNeeded env <;> simp [hssh, tunnelPre]
        · rw [hds] at hd
          have hdevs : devs = [.warnNoYear] := (congrArg Prod.fst hd).symm
          subst hdevs
          cases hssh : sshNeeded env <;> simp [hssh, tunnelPre]
    · intro hcfg hA hc hcr
      rcases loadTry_shape env fs s3 .replace year with
        ⟨hA2, hL⟩ | ⟨hA2, hc2, hL⟩ | ⟨hA2, hc2, hcr2, hL⟩ |
        ⟨hA2, hc2, hcr2, devs, hd, hL⟩ | ⟨hA2, hc2, hcr2, hcp2, devs, hd, hL⟩ |
        ⟨hA2, hc2, hcr2, hcp2, hcm2, devs, hd, hL⟩ |
        ⟨hA2, hc2, hcr2, hcp2, hcm2, devs, hd, hL⟩
      · rw [hA] at hA2; exact absurd hA2 (by simp)
      · rw [hc] at hc2; exact absurd hc2 (by simp)
      · rw [hcr] at hcr2; exact absurd hcr2 (by simp)
      · rw [hds] at hd
        exact absurd (congrArg Prod.snd hd) (by simp)
      · rw [hds] at hd
        have hdevs : devs = [.warnNoYear] := (congrArg Prod.fst hd).symm
        subst hdevs
        rw [load_trace_eq env fs s3 .replace year hcfg hL]
        constructor
        · simp
        · intro hcp'
          rw [hcp'] at hcp2; exact absurd hcp2 (by simp)
      · rw [hds] at hd
        have hdevs : devs = [.warnNoYear] := (congrArg Prod.fst hd).symm
        subst hdevs
        rw [load_trace_eq env fs s3 .replace year hcfg hL]
        exact ⟨by simp, fun _ => by simp⟩
      · rw [hds] at hd
        have hdevs : devs = [.warnNoYear] := (congrArg Prod.fst hd).symm
        subst hdevs
        rw [load_trace_eq env fs s3 .replace year hcfg hL]
        exact ⟨by simp, fun _ => by simp⟩

/-- The failure specification in which the bulk copy raises. -/
def copyFails : FailSpec := ⟨true, true, true, true, false, true⟩

/-- Concrete instantiation of `load_replace_delete_spec`. -/
theorem load_replace_delete_spec_witness :
    (⟨"Mar 2025", "s", "e"⟩ ∈ deleteYearRows 2025 [⟨"Mar 2025", "s", "e"⟩] ↔
      ⟨"Mar 2025", "s", "e"⟩ ∈ ([⟨"Mar 2025", "s", "e"⟩] : List TableRow) ∧
        ¬ ∃ pre post,
          ("Mar 2025" : String).data = pre ++ (toString 2025).data ++ post) ∧
    List.Sublist [DbEvent.deleteYear "coe" 2025,
        DbEvent.copy "coe" "s3://b/k" "role"]
      (load_to_redshift sampleRedshiftEnv allCallsOk "s3://b/k" .replace
        (some 2025)) ∧
    DbEvent.deleteYear "coe" 2025 ∉
      load_to_redshift sampleRedshiftEnv allCallsOk "s3://b/k" .append
        (some 2025) ∧
    DbEvent.warnNoYear ∈
      load_to_redshift sampleRedshiftEnv allCallsOk "s3://b/k" .replace none :=
  ⟨(load_replace_delete_spec sampleRedshiftEnv allCallsOk "s3://b/k").1 2025
      [⟨"Mar 2025", "s", "e"⟩] ⟨"Mar 2025", "s", "e"⟩,
    (load_replace_delete_spec sampleRedshiftEnv allCallsOk "s3://b/k").2.1 2025
      (by decide) (by decide) (by decide) (by decide) (by decide) (by decide)
      (by decide),
    (load_replace_delete_spec sampleRedshiftEnv allCallsOk "s3://b/k").2.2.1
      (some 2025) "coe" 2025,
    (((load_replace_delete_spec sampleRedshiftEnv allCallsOk
        "s3://b/k").2.2.2 none (Or.inl rfl)).2 (by decide) (by decide)
      (by decide) (by decide)).1⟩

/-- Concrete instantiation of `load_to_redshift_closes_resources`, with the
SSH tunnel configured. -/
theorem load_to_redshift_closes_resources_witness :
    List.Sublist [DbEvent.connect, DbEvent.connClose]
      (load_to_redshift sampleRedshiftEnvSsh allCallsOk "s3://b/k" .append
        none) ∧
    List.Sublist [DbEvent.tunnelStart, DbEvent.tunnelStop]
      (load_to_redshift sampleRedshiftEnvSsh allCallsOk "s3://b/k" .append
        none) :=
  ⟨(load_to_redshift_closes_resources sampleRedshiftEnvSsh allCallsOk
      "s3://b/k" .append none).1 (by decide),
    (load_to_redshift_closes_resources sampleRedshiftEnvSsh allCallsOk
      "s3://b/k" .append none).2 (by decide)⟩

/-- Concrete instantiation of `load_to_redshift_commit_discipline`: a
successful run commits after the copy, and a run whose copy raises logs
the error and never commits. -/
theorem load_to_redshift_commit_discipline_witness :
    List.Sublist [DbEvent.copy "coe" "s3://b/k" "role", DbEvent.commit]
      (load_to_redshift sampleRedshiftEnv allCallsOk "s3://b/k" .append none) ∧
    DbEvent.commit ∉
      load_to_redshift sampleRedshiftEnv copyFails "s3://b/k" .append none ∧
    DbEvent.logError ∈
      load_to_redshift sampleRedshiftEnv copyFails "s3://b/k" .append none :=
  ⟨(load_to_redshift_commit_discipline sampleRedshiftEnv allCallsOk "s3://b/k"
      .append none).1 (by decide),
    (load_to_redshift_commit_discipline sampleRedshiftEnv copyFails "s3://b/k"
      .append none).2.1 (by decide),
    (load_to_redshift_commit_discipline sampleRedshiftEnv copyFails "s3://b/k"
      .append none).2.2.mpr ⟨by decide, by decide⟩⟩

/-- Claim C9: When no bucket name is configured, `upload_to_s3` returns no
result and its trace is empty: no boto3 client is constructed and no
upload is attempted. -/
theorem upload_missing_bucket (env : S3Env) (file_path : String)
    (h : truthy env.bucket = false) :
    (upload_to_s3 env file_path).1 = none ∧
      (upload_to_s3 env file_path).2 = [] := by
  simp [upload_to_s3, h]

/-- Concrete instantiation of `upload_missing_bucket`. -/
theorem upload_missing_bucket_witness :
    (upload_to_s3 ⟨none, true⟩ "data/COE_Bidding_Schedule_2025.jsonl").1 =
      none ∧
    (upload_to_s3 ⟨none, true⟩ "data/COE_Bidding_Schedule_2025.jsonl").2 =
      [] :=
  upload_missing_bucket ⟨none, true⟩ "data/COE_Bidding_Schedule_2025.jsonl"
    (by decide)

/-- Python truthiness of an optional integer (`if year:` / `not year`):
`None` and `0` are falsy. -/
def pyTruthyNat : Option Nat → Bool
  | none => false
  | some y => !(y == 0)

/-- Externally visible actions of the loader CLI `main`. -/
inductive MainEvent
  | fileNotFound
  | warnNoYearMain
  | loadCall (s3path : String) (mode : LoadMode) (year : Option Nat)
  | skipLoadMsg
deriving DecidableEq, Repr

/-- The loader CLI `main` (src/load_schedule.py): file-existence check,
year extraction (with a warning when replace mode has no truthy year),
optional S3 upload, then the Redshift load — which runs only when
`load_redshift` is toggled on *and* the upload stage produced an S3 path;
otherwise a skip message is printed. -/
def loader_main (s3env : S3Env) (file_exists : Bool) (file_path : String)
    (upload_s3 load_redshift : Bool) (mode : LoadMode) : List MainEvent :=
  if !file_exists then [.fileNotFound]
  else
    let year := extract_year_from_filename file_path
    let warn : List MainEvent :=
      if mode = .replace ∧ pyTruthyNat year = false then [.warnNoYearMain]
      else []
    let s3_path := if upload_s3 then (upload_to_s3 s3env file_path).1 else none
    warn ++
      match load_redshift, s3_path with
      | true, some p => [.loadCall p mode year]
      | true, none => [.skipLoadMsg]
      | false, _ => []

lemma mem_ite_singleton {α : Type} {x a : α} {c : Prop} [Decidable c] :
    x ∈ (if c then [a] else []) ↔ c ∧ x = a := by
  split_ifs with h <;> simp [h]

lemma loadCall_mem_iff (s3env : S3Env) (fe : Bool) (fp : String) (u l : Bool)
    (m : LoadMode) (p : String) (m' : LoadMode) (y' : Option Nat) :
    MainEvent.loadCall p m' y' ∈ loader_main s3env fe fp u l m ↔
      fe = true ∧ l = true ∧ u = true ∧
        (upload_to_s3 s3env fp).1 = some p ∧ m' = m ∧
        y' = extract_year_from_filename fp := by
  cases fe <;> cases u <;> cases l <;>
    rcases hup : (upload_to_s3 s3env fp).1 with - | q <;>
    simp [loader_main, hup, mem_ite_singleton]
  all_goals aesop

lemma skip_mem_of_no_path (s3env : S3Env) (fp : String) (u : Bool)
    (m : LoadMode)
    (hpath : u = false ∨ (upload_to_s3 s3env fp).1 = none) :
    MainEvent.skipLoadMsg ∈ loader_main s3env true fp u true m := by
  have hnone : (if u then (upload_to_s3 s3env fp).1 else none) = none := by
    rcases hpath with rfl | hnone
    · simp
    · simp [hnone]
  simp [loader_main, hnone]

/-- Claim C10: In the loader CLI, the warehouse load runs only on an S3 URI
produced by a successful same-run upload: every `loadCall` in the trace
implies the upload toggle was on and `upload_to_s3` returned that path;
and when the load toggle is on but the upload was skipped or failed, no
`loadCall` occurs and the skip message is printed instead. -/
theorem loader_main_gates_load (s3env : S3Env) (fe : Bool) (fp : String)
    (u l : Bool) (m : LoadMode) :
    (∀ p m' y', MainEvent.loadCall p m' y' ∈ loader_main s3env fe fp u l m →
      u = true ∧ (upload_to_s3 s3env fp).1 = some p) ∧
    (fe = true → l = true →
      (u = false ∨ (upload_to_s3 s3env fp).1 = none) →
      (∀ p m' y', MainEvent.loadCall p m' y' ∉ loader_main s3env fe fp u l m) ∧
      MainEvent.skipLoadMsg ∈ loader_main s3env fe fp u l m) := by
  constructor
  · intro p m' y' hmem
    have h := (loadCall_mem_iff s3env fe fp u l m p m' y').mp hmem
    exact ⟨h.2.2.1, h.2.2.2.1⟩
  · intro hfe hl hpath
    subst hfe; subst hl
    constructor
    · intro p m' y' hmem
      have h := (loadCall_mem_iff s3env true fp u true m p m' y').mp hmem
      rcases hpath with hu | hnone
      · rw [h.2.2.1] at hu; exact Bool.noConfusion hu
      · rw [hnone] at h; exact Option.noConfusion h.2.2.2.1
    · exact skip_mem_of_no_path s3env fp u m hpath

/-- Concrete instantiation of `loader_main_gates_load`: a successful
upload yields a load call on the uploaded URI, and a failed upload with
the load toggle on yields the skip message. -/
theorem loader_main_gates_load_witness :
    (true = true ∧
      (upload_to_s3 ⟨some "b", true⟩
        "data/COE_Bidding_Schedule_2025.jsonl").1 =
        some "s3://b/data/coe_bidding_schedule/COE_Bidding_Schedule_2025.jsonl") ∧
    MainEvent.skipLoadMsg ∈ loader_main ⟨some "b", false⟩ true
      "data/COE_Bidding_Schedule_2025.jsonl" true true .append :=
  ⟨(loader_main_gates_load ⟨some "b", true⟩ true
      "data/COE_Bidding_Schedule_2025.jsonl" true true .append).1
      "s3://b/data/coe_bidding_schedule/COE_Bidding_Schedule_2025.jsonl"
      .append (some 2025) (by decide),
    ((loader_main_gates_load ⟨some "b", false⟩ true
      "data/COE_Bidding_Schedule_2025.jsonl" true true .append).2 rfl rfl
      (Or.inr (by decide))).2⟩

/-- Abstraction of a Python `datetime` as the serializer sees it: its
calendar year (`.year`, used only to name the output file) and its
ISO-8601 textual rendering (what `model_dump(mode='json')` emits for the
field). -/
structure PyDateTime where
  year : Nat
  iso : String
deriving DecidableEq, Repr

/-- `BiddingExercise` (src/extract_schedule.py): one schedule record. -/
structure BiddingExercise where
  month : String
  exercise_start_datetime : PyDateTime
  exercise_end_datetime : PyDateTime
deriving DecidableEq, Repr

/-- `ScheduleResponse` (src/extract_schedule.py): the ordered list of
records returned by extraction. -/
structure ScheduleResponse where
  schedule : List BiddingExercise
deriving DecidableEq, Repr

/-- Lower-case hexadecimal digit, as printed by Python's `'%04x'`. -/
def hexDig (d : Nat) : Char :=
  if d < 10 then Char.ofNat (48 + d) else Char.ofNat (87 + d)

/-- Four-digit lower-case hexadecimal rendering of `n < 0x10000`. -/
def hex4 (n : Nat) : List Char :=
  [hexDig (n / 4096 % 16), hexDig (n / 256 % 16), hexDig (n / 16 % 16),
    hexDig (n % 16)]

/-- `json.dumps` escaping of one character with the default
`ensure_ascii=True`: the two-character escapes for `"`, `\`, and the
C0 controls with short names; printable ASCII verbatim; everything else
as `\uXXXX`, with astral code points as a UTF-16 surrogate pair. -/
def encodeChar (c : Char) : List Char :=
  if c = '"' then ['\\', '"']
  else if c = '\\' then ['\\', '\\']
  else if c = '\n' then ['\\', 'n']
  else if c = '\r' then ['\\', 'r']
  else if c = '\t' then ['\\', 't']
  else if c.toNat = 8 then ['\\', 'b']
  else if c.toNat = 12 then ['\\', 'f']
  else if 0x20 ≤ c.toNat ∧ c.toNat ≤ 0x7e then [c]
  else if c.toNat < 0x10000 then '\\' :: 'u' :: hex4 c.toNat
  else
    '\\' :: 'u' :: hex4 (0xd800 + (c.toNat - 0x10000) / 1024) ++
      ('\\' :: 'u' :: hex4 (0xdc00 + (c.toNat - 0x10000) % 1024))

/-- `json.dumps` rendering of a Python string: quoted, escaped. -/
def encodeJsonString (s : String) : List Char :=
  '"' :: (s.data.flatMap encodeChar ++ ['"'])

/-- `json.dumps` boilerplate of the record dictionary, first key. -/
def lit1 : List Char := "\x7b\"month\": ".data

/-- `json.dumps` boilerplate, before the second key. -/
def lit2 : List Char := ", \"exercise_start_datetime\": ".data

/-- `json.dumps` boilerplate, before the third key. -/
def lit3 : List Char := ", \"exercise_end_datetime\": ".data

/-- `json.dumps(entry.model_dump(mode='json'))`: the single JSON line the
serializer writes for one record (default separators, insertion order of
the three model fields). -/
def encodeRecord (e : BiddingExercise) : List Char :=
  lit1 ++ encodeJsonString e.month ++
    lit2 ++ encodeJsonString e.exercise_start_datetime.iso ++
    lit3 ++ encodeJsonString e.exercise_end_datetime.iso ++ ['\x7d']

/-- The full contents written by the serializer's loop: one encoded
record plus `"\n"` per schedule entry, in order. -/
def encodeFile (l : List BiddingExercise) : List Char :=
  l.flatMap (fun e => encodeRecord e ++ ['\n'])

/-- Value of one hexadecimal digit character (`json.loads`). -/
def hexVal (c : Char) : Option Nat :=
  if 48 ≤ c.toNat ∧ c.toNat ≤ 57 then some (c.toNat - 48)
  else if 97 ≤ c.toNat ∧ c.toNat ≤ 102 then some (c.toNat - 87)
  else if 65 ≤ c.toNat ∧ c.toNat ≤ 70 then some (c.toNat - 55)
  else none

/-- Resolve a single-character escape (`json.loads`). -/
def escChar (e : Char) : Option Char :=
  if e = '"' then some '"'
  else if e = '\\' then some '\\'
  else if e = '/' then some '/'
  else if e = 'n' then some '\n'
  else if e = 'r' then some '\r'
  else if e = 't' then some '\t'
  else if e = 'b' then some (Char.ofNat 8)
  else if e = 'f' then some (Char.ofNat 12)
  else none

/-- Value of a four-hex-digit escape body. -/
def decodeU (h1 h2 h3 h4 : Char) : Option Nat :=
  match hexVal h1, hexVal h2, hexVal h3, hexVal h4 with
  | some x1, some x2, some x3, some x4 =>
    some (4096 * x1 + 256 * x2 + 16 * x3 + x4)
  | _, _, _, _ => none

/-- One lexical token of the JSON string-body decoder: the closing quote,
one UTF-16 code unit from a `\uXXXX` escape, or one literal/simple-escape
character. -/
inductive JUnit
  | fin (rest : List Char)
  | unit (n : Nat) (rest : List Char)
  | chr (c : Char) (rest : List Char)
deriving DecidableEq, Repr

/-- One step of the JSON string-body decoder (`json.loads` on a string
literal, opening quote already consumed). -/
def stepJ : List Char → Option JUnit
  | [] => none
  | c :: rest =>
    if c = '"' then some (.fin rest)
    else if c = '\\' then
      match rest with
      | [] => none
      | e :: r2 =>
        if e = 'u' then
          match r2 with
          | h1 :: h2 :: h3 :: h4 :: r3 =>
            match decodeU h1 h2 h3 h4 with
            | some n => some (.unit n r3)
            | none => none
          | _ => none
        else
          match escChar e with
          | some d => some (.chr d r2)
          | none => none
    else some (.chr c rest)

/-- Iterate `stepJ` until the closing quote, collecting decoded
characters (reversed) in `acc`; a `\uXXXX` high surrogate must be
followed by a low surrogate, the pair decoding to one astral character,
as in `json.loads`.  The fuel argument only bounds the number of
steps. -/
def parseJStrAux : Nat → List Char → List Char → Option (String × List Char)
  | 0, _, _ => none
  | fuel + 1, acc, l =>
    match stepJ l with
    | none => none
    | some (.fin rest) => some (⟨acc.reverse⟩, rest)
    | some (.chr c rest) => parseJStrAux fuel (c :: acc) rest
    | some (.unit n rest) =>
      if n < 0xd800 ∨ 0xdfff < n then
        parseJStrAux fuel (Char.ofNat n :: acc) rest
      else if n < 0xdc00 then
        match stepJ rest with
        | some (.unit m2 rest2) =>
          if 0xdc00 ≤ m2 ∧ m2 < 0xe000 then
            parseJStrAux fuel
              (Char.ofNat (0x10000 + (n - 0xd800) * 1024 + (m2 - 0xdc00))
                :: acc) rest2
          else none
        | _ => none
      else none

/-- JSON string-body parser: decode until the closing quote and return
the decoded string together with the unconsumed remainder. -/
def parseJStr (acc l : List Char) : Option (String × List Char) :=
  parseJStrAux (l.length + 1) acc l

/-- Consume an expected literal prefix. -/
def expectLit : List Char → List Char → Option (List Char)
  | [], rest => some rest
  | _ :: _, [] => none
  | l :: ls, c :: rest => if c = l then expectLit ls rest else none

lemma hexVal_hexDig : ∀ d : Nat, d < 16 → hexVal (hexDig d) = some d := by
  decide

lemma char_valid_nat (c : Char) :
    c.toNat < 0xd800 ∨ (0xdfff < c.toNat ∧ c.toNat < 0x110000) := by
  have h := c.valid
  unfold UInt32.isValidChar at h
  unfold Nat.isValidChar at h
  exact h

lemma decodeU_hex4 (n : Nat) (h : n < 0x10000) :
    decodeU (hexDig (n / 4096 % 16)) (hexDig (n / 256 % 16))
      (hexDig (n / 16 % 16)) (hexDig (n % 16)) = some n := by
  rw [decodeU]
  rw [hexVal_hexDig _ (by omega), hexVal_hexDig _ (by omega),
    hexVal_hexDig _ (by omega), hexVal_hexDig _ (by omega)]
  simp only [Option.some.injEq]
  omega

lemma stepJ_u (n : Nat) (h : n < 0x10000) (t : List Char) :
    stepJ ('\\' :: 'u' :: hex4 n ++ t) = some (.unit n t) := by
  simp only [hex4, List.cons_append, List.nil_append, stepJ]
  rw [decodeU_hex4 n h]
  simp

lemma parseJStrAux_step_fin {l rest : List Char} (fuel : Nat) (acc : List Char)
    (hs : stepJ l = some (.fin rest)) :
    parseJStrAux (fuel + 1) acc l = some (⟨acc.reverse⟩, rest) := by
  simp [parseJStrAux, hs]

lemma parseJStrAux_step_chr {l rest : List Char} {c : Char} (fuel : Nat)
    (acc : List Char) (hs : stepJ l = some (.chr c rest)) :
    parseJStrAux (fuel + 1) acc l = parseJStrAux fuel (c :: acc) rest := by
  simp [parseJStrAux, hs]

lemma parseJStrAux_step_unit {l rest : List Char} {n : Nat} (fuel : Nat)
    (acc : List Char) (hs : stepJ l = some (.unit n rest))
    (hn : n < 0xd800 ∨ 0xdfff < n) :
    parseJStrAux (fuel + 1) acc l =
      parseJStrAux fuel (Char.ofNat n :: acc) rest := by
  simp [parseJStrAux, hs, hn]

lemma parseJStrAux_step_pair {l rest rest2 : List Char} {n m2 : Nat}
    (fuel : Nat) (acc : List Char)
    (hs1 : stepJ l = some (.unit n rest))
    (hs2 : stepJ rest = some (.unit m2 rest2))
    (hn : 0xd800 ≤ n ∧ n < 0xdc00) (hm : 0xdc00 ≤ m2 ∧ m2 < 0xe000) :
    parseJStrAux (fuel + 1) acc l =
      parseJStrAux fuel
        (Char.ofNat (0x10000 + (n - 0xd800) * 1024 + (m2 - 0xdc00)) :: acc)
        rest2 := by
  have hno : ¬(n < 0xd800 ∨ 0xdfff < n) := by omega
  have hlt : n < 0xdc00 := by omega
  simp only [parseJStrAux]
  rw [hs1]
  simp only [hno, if_false, reduceIte, hlt, if_true, hs2, hm]
  simp [hno, hlt, hs2, hm]

lemma parseJStrAux_encodeChar (c : Char) (fuel : Nat) (acc t : List Char) :
    parseJStrAux (fuel + 1) acc (encodeChar c ++ t) =
      parseJStrAux fuel (c :: acc) t := by
  by_cases h1 : c = '"'
  · subst h1
    refine parseJStrAux_step_chr fuel acc ?_
    simp [encodeChar, stepJ, escChar]
  by_cases h2 : c = '\\'
  · subst h2
    refine parseJStrAux_step_chr fuel acc ?_
    simp [encodeChar, stepJ, escChar]
  by_cases h3 : c = '\n'
  · subst h3
    refine parseJStrAux_step_chr fuel acc ?_
    simp [encodeChar, stepJ, escChar]
  by_cases h4 : c = '\r'
  · subst h4
    refine parseJStrAux_step_chr fuel acc ?_
    simp [encodeChar, stepJ, escChar]
  by_cases h5 : c = '\t'
  · subst h5
    refine parseJStrAux_step_chr fuel acc ?_
    simp [encodeChar, stepJ, escChar]
  by_cases h6 : c.toNat = 8
  · have hc : c = Char.ofNat 8 := by rw [← Char.ofNat_toNat c, h6]
    subst hc
    refine parseJStrAux_step_chr fuel acc ?_
    simp [encodeChar, stepJ, escChar]
  by_cases h7 : c.toNat = 12
  · have hc : c = Char.ofNat 12 := by rw [← Char.ofNat_toNat c, h7]
    subst hc
    refine parseJStrAux_step_chr fuel acc ?_
    simp [encodeChar, stepJ, escChar]
  by_cases h8 : 0x20 ≤ c.toNat ∧ c.toNat ≤ 0x7e
  · have henc : encodeChar c = [c] := by
      simp [encodeChar, h1, h2, h3, h4, h5, h6, h7, h8]
    rw [henc, List.cons_append, List.nil_append]
    refine parseJStrAux_step_chr fuel acc ?_
    simp only [stepJ]
    simp [h1, h2]
  by_cases h9 : c.toNat < 0x10000
  · have henc : encodeChar c = '\\' :: 'u' :: hex4 c.toNat := by
      simp [encodeChar, h1, h2, h3, h4, h5, h6, h7, h8, h9]
    have hval := char_valid_nat c
    have hcond : c.toNat < 0xd800 ∨ 0xdfff < c.toNat := by omega
    have hstep := stepJ_u c.toNat h9 t
    rw [henc]
    simp only [List.cons_append]
    simp only [List.cons_append] at hstep
    rw [parseJStrAux_step_unit fuel acc hstep hcond, Char.ofNat_toNat]
  · have henc : encodeChar c =
        '\\' :: 'u' :: hex4 (0xd800 + (c.toNat - 0x10000) / 1024) ++
          ('\\' :: 'u' :: hex4 (0xdc00 + (c.toNat - 0x10000) % 1024)) := by
      simp [encodeChar, h1, h2, h3, h4, h5, h6, h7, h8, h9]
    have hval := char_valid_nat c
    have hstep1 := stepJ_u (0xd800 + (c.toNat - 0x10000) / 1024) (by omega)
      ('\\' :: 'u' :: (hex4 (0xdc00 + (c.toNat - 0x10000) % 1024) ++ t))
    have hstep2 := stepJ_u (0xdc00 + (c.toNat - 0x10000) % 1024) (by omega) t
    have hrecomb : 0x10000 +
        (0xd800 + (c.toNat - 0x10000) / 1024 - 0xd800) * 1024 +
        (0xdc00 + (c.toNat - 0x10000) % 1024 - 0xdc00) = c.toNat := by
      omega
    rw [henc]
    simp only [List.cons_append, List.append_assoc]
    simp only [List.cons_append] at hstep1 hstep2
    rw [parseJStrAux_step_pair fuel acc hstep1 hstep2 (by omega) (by omega)]
    rw [hrecomb, Char.ofNat_toNat]

lemma parseJStrAux_encodeList (cs : List Char) :
    ∀ (fuel : Nat) (acc t : List Char), cs.length ≤ fuel →
      parseJStrAux (fuel + 1) acc (cs.flatMap encodeChar ++ '"' :: t) =
        some (⟨acc.reverse ++ cs⟩, t) := by
  induction cs with
  | nil =>
    intro fuel acc t hf
    simp only [List.flatMap_nil, List.nil_append]
    rw [@parseJStrAux_step_fin ('"' :: t) t fuel acc (by simp [stepJ])]
    simp
  | cons c cs ih =>
    intro fuel acc t hf
    simp only [List.flatMap_cons, List.append_assoc]
    rw [parseJStrAux_encodeChar c fuel acc]
    cases fuel with
    | zero => simp at hf
    | succ f =>
      rw [ih f (c :: acc) t (by simpa using hf)]
      simp

lemma encodeChar_length_pos (c : Char) : 1 ≤ (encodeChar c).length := by
  unfold encodeChar
  split_ifs <;> simp [hex4]

lemma length_le_flatMap_encode (cs : List Char) :
    cs.length ≤ (cs.flatMap encodeChar).length := by
  induction cs with
  | nil => simp
  | cons c cs ih =>
    simp only [List.flatMap_cons, List.length_append, List.length_cons]
    have := encodeChar_length_pos c
    omega

lemma parseJStr_encode (s : String) (t : List Char) :
    parseJStr [] (s.data.flatMap encodeChar ++ '"' :: t) = some (s, t) := by
  unfold parseJStr
  have hlen : s.data.length ≤
      (s.data.flatMap encodeChar ++ '"' :: t).length := by
    have := length_le_flatMap_encode s.data
    simp only [List.length_append, List.length_cons]
    omega
  rw [parseJStrAux_encodeList s.data _ [] t hlen]
  simp

/-- A JSON string value: consume the opening quote and decode the body. -/
def parseJsonValueStr : List Char → Option (String × List Char)
  | '"' :: rest => parseJStr [] rest
  | _ => none

lemma parseJsonValueStr_encode (s : String) (t : List Char) :
    parseJsonValueStr (encodeJsonString s ++ t) = some (s, t) := by
  simp only [encodeJsonString, List.cons_append, List.append_assoc,
    List.nil_append, parseJsonValueStr]
  exact parseJStr_encode s t

/-- Parse one line of the persisted file: the three-key JSON object
written by the serializer, returning the `month`, start and end strings.
A trailing-garbage line fails. -/
def parseRecordLine (l : List Char) : Option (String × String × String) :=
  (expectLit lit1 l).bind fun r1 =>
  (parseJsonValueStr r1).bind fun mr =>
  (expectLit lit2 mr.2).bind fun r3 =>
  (parseJsonValueStr r3).bind fun sr =>
  (expectLit lit3 sr.2).bind fun r5 =>
  (parseJsonValueStr r5).bind fun er =>
  if er.2 = ['\x7d'] then some (mr.1, sr.1, er.1) else none

lemma expectLit_append (l t : List Char) : expectLit l (l ++ t) = some t := by
  induction l with
  | nil => rfl
  | cons c cs ih => simp [expectLit, ih]

lemma parseRecordLine_encodeRecord (e : BiddingExercise) :
    parseRecordLine (encodeRecord e) =
      some (e.month, e.exercise_start_datetime.iso,
        e.exercise_end_datetime.iso) := by
  unfold encodeRecord parseRecordLine
  simp only [List.append_assoc]
  rw [expectLit_append]
  simp only [Option.some_bind]
  rw [parseJsonValueStr_encode]
  simp only [Option.some_bind]
  rw [expectLit_append]
  simp only [Option.some_bind]
  rw [parseJsonValueStr_encode]
  simp only [Option.some_bind]
  rw [expectLit_append]
  simp only [Option.some_bind]
  rw [← List.append_nil ['\x7d'], parseJsonValueStr_encode]
  simp

/-- Split a character sequence at every newline (the line structure seen
when re-reading the persisted file). -/
def splitNl : List Char → List (List Char)
  | [] => [[]]
  | c :: rest =>
    if c = '\n' then [] :: splitNl rest
    else
      match splitNl rest with
      | [] => [[c]]
      | l :: ls => (c :: l) :: ls

lemma char_ofNat_toNat {n : Nat} (h : Nat.isValidChar n) :
    (Char.ofNat n).toNat = n := by
  simp [Char.ofNat, h]
  rfl

lemma hexDig_ne_nl (d : Nat) (hd : d < 16) : hexDig d ≠ '\n' := by
  unfold hexDig
  split_ifs with h
  · intro hc
    have h10 : (Char.ofNat (48 + d)).toNat = 10 := by rw [hc]; rfl
    rw [char_ofNat_toNat (Or.inl (by omega))] at h10
    omega
  · intro hc
    have h10 : (Char.ofNat (87 + d)).toNat = 10 := by rw [hc]; rfl
    rw [char_ofNat_toNat (Or.inl (by omega))] at h10
    omega

lemma nl_not_mem_hex4 (n : Nat) : '\n' ∉ hex4 n := by
  simp only [hex4, List.mem_cons, List.not_mem_nil, or_false]
  push_neg
  refine ⟨?_, ?_, ?_, ?_⟩ <;>
    exact fun hc => hexDig_ne_nl _ (by omega) hc.symm

lemma nl_not_mem_encodeChar (c : Char) : '\n' ∉ encodeChar c := by
  unfold encodeChar
  split_ifs with h1 h2 h3 h4 h5 h6 h7 h8 h9
  · simp
  · simp
  · simp
  · simp
  · simp
  · simp
  · simp
  · simp only [List.mem_singleton]
    intro hc
    have : c.toNat = 10 := by rw [← hc]; rfl
    omega
  · simp only [List.mem_cons, List.not_mem_nil]
    rintro (hc | hc | hc)
    · exact absurd hc.symm (by decide)
    · exact absurd hc.symm (by decide)
    · exact nl_not_mem_hex4 _ hc
  · simp only [List.cons_append, List.mem_cons, List.mem_append]
    rintro (hc | hc | hc)
    · exact absurd hc.symm (by decide)
    · exact absurd hc.symm (by decide)
    · rcases hc with hc | hc
      · exact nl_not_mem_hex4 _ hc
      · rcases hc with hc | hc | hc
        · exact absurd hc.symm (by decide)
        · exact absurd hc.symm (by decide)
        · exact nl_not_mem_hex4 _ hc

lemma nl_not_mem_encodeJsonString (s : String) :
    '\n' ∉ encodeJsonString s := by
  simp only [encodeJsonString, List.mem_cons, List.mem_append,
    List.mem_singleton, List.mem_flatMap]
  rintro (hc | ⟨⟨c, -, hc⟩ | hc⟩)
  · exact absurd hc (by decide)
  · exact nl_not_mem_encodeChar c hc
  · exact absurd hc (by decide)

lemma nl_not_mem_encodeRecord (e : BiddingExercise) :
    '\n' ∉ encodeRecord e := by
  simp only [encodeRecord, List.mem_append, List.mem_singleton]
  rintro ((((((hc | hc) | hc) | hc) | hc) | hc) | hc)
  · exact absurd hc (by decide)
  · exact nl_not_mem_encodeJsonString _ hc
  · exact absurd hc (by decide)
  · exact nl_not_mem_encodeJsonString _ hc
  · exact absurd hc (by decide)
  · exact nl_not_mem_encodeJsonString _ hc
  · exact absurd hc (by decide)

lemma splitNl_append (xs ys : List Char) (h : '\n' ∉ xs) :
    splitNl (xs ++ '\n' :: ys) = xs :: splitNl ys := by
  induction xs with
  | nil => simp [splitNl]
  | cons c cs ih =>
    have hc : ¬ c = '\n' := fun hc => h (hc ▸ List.mem_cons_self c cs)
    simp only [List.cons_append, splitNl, hc, if_false, List.append_eq]
    rw [ih (fun hm => h (List.mem_cons_of_mem c hm))]

lemma splitNl_encodeFile (l : List BiddingExercise) :
    splitNl (encodeFile l) = (l.map encodeRecord) ++ [[]] := by
  induction l with
  | nil => simp [encodeFile, splitNl]
  | cons e es ih =>
    simp only [encodeFile, List.flatMap_cons, List.map_cons,
      List.append_assoc, List.cons_append, List.singleton_append]
    rw [splitNl_append _ _ (nl_not_mem_encodeRecord e)]
    simp only [List.nil_append]
    simp only [encodeFile] at ih
    rw [ih]

lemma encodeRecord_ne_nil (e : BiddingExercise) : encodeRecord e ≠ [] := by
  simp [encodeRecord, lit1]

/-- Re-parse the persisted file: split into lines, drop empty lines (the
trailing newline), and parse every line as one record object. -/
def parseJsonlFile (s : String) : Option (List (String × String × String)) :=
  ((splitNl s.data).filter (fun l => !l.isEmpty)).mapM parseRecordLine

lemma mapM_map_some {α β γ : Type} (f : α → β) (g : β → Option γ)
    (v : α → γ) (l : List α) (h : ∀ a ∈ l, g (f a) = some (v a)) :
    (l.map f).mapM g = some (l.map v) := by
  induction l with
  | nil => rfl
  | cons a as ih =>
    simp only [List.map_cons, List.mapM_cons]
    rw [h a (List.mem_cons_self a as),
      ih (fun b hb => h b (List.mem_cons_of_mem a hb))]
    rfl

lemma parseJsonlFile_encodeFile (l : List BiddingExercise) :
    parseJsonlFile ⟨encodeFile l⟩ =
      some (l.map fun e =>
        (e.month, e.exercise_start_datetime.iso,
          e.exercise_end_datetime.iso)) := by
  unfold parseJsonlFile
  show ((splitNl (encodeFile l)).filter _).mapM _ = _
  rw [splitNl_encodeFile]
  rw [List.filter_append]
  have h1 : (l.map encodeRecord).filter (fun x => !x.isEmpty) =
      l.map encodeRecord := by
    rw [List.filter_eq_self]
    intro a ha
    rcases List.mem_map.mp ha with ⟨e, -, rfl⟩
    simpa using encodeRecord_ne_nil e
  rw [h1]
  simp only [List.filter, List.isEmpty_nil, Bool.not_true, List.append_nil]
  exact mapM_map_some encodeRecord parseRecordLine _ l
    (fun e _ => parseRecordLine_encodeRecord e)

/-- A simple filesystem: the set of existing directories and a map from
paths to file contents (latest write first). -/
structure FS where
  dirs : List String
  files : List (String × String)
deriving DecidableEq, Repr

/-- `open(path, "w")` fails when the target directory does not exist. -/
inductive WriteError
  | dirNotFound
deriving DecidableEq, Repr

/-- Does a directory exist?  The empty string stands for the current
working directory, which always exists. -/
def dirExists (fs : FS) (d : String) : Bool :=
  d = "" || fs.dirs.contains d

/-- Overwrite `path` with `contents` (`open(..., "w")`). -/
def fsWrite (fs : FS) (path contents : String) : FS :=
  ⟨fs.dirs, (path, contents) :: fs.files⟩

/-- `os.makedirs(d, exist_ok=True)`. -/
def fsMakedirs (fs : FS) (d : String) : FS :=
  ⟨d :: fs.dirs, fs.files⟩

/-- `save_to_jsonl` (src/extract_schedule.py): skip (returning `None` and
writing nothing) when the response is absent or has no records; otherwise
derive the filename from the year of the first record's start timestamp,
join it to the output directory, and write all records, one JSON line
each.  The function itself never creates the directory: `open(..., "w")`
raises when the directory is missing. -/
def save_to_jsonl (schedule_data : Option ScheduleResponse)
    (output_dir : String) (fs : FS) :
    Except WriteError (Option String × FS) :=
  match schedule_data with
  | none => .ok (none, fs)
  | some sd =>
    match sd.schedule with
    | [] => .ok (none, fs)
    | first_entry :: _ =>
      let year := first_entry.exercise_start_datetime.year
      let output_filename := "COE_Bidding_Schedule_" ++ toString year ++ ".jsonl"
      let output_path := os_path_join output_dir output_filename
      if dirExists fs output_dir then
        .ok (some output_path,
          fsWrite fs output_path ⟨encodeFile sd.schedule⟩)
      else
        .error .dirNotFound

/-- The save stage of the extractor CLI `main`
(src/extract_schedule.py, lines 186–189): when extraction produced a
result, `os.makedirs(output_dir, exist_ok=True)` runs before
`save_to_jsonl`. -/
def extractor_main_save (result : Option ScheduleResponse)
    (output_dir : String) (fs : FS) :
    Except WriteError (Option String × FS) :=
  match result with
  | some r => save_to_jsonl (some r) output_dir (fsMakedirs fs output_dir)
  | none => .ok (none, fs)

lemma encodeFile_lines (l : List BiddingExercise) :
    (splitNl (encodeFile l)).filter (fun x => !x.isEmpty) =
      l.map encodeRecord := by
  rw [splitNl_encodeFile, List.filter_append]
  have h1 : (l.map encodeRecord).filter (fun x => !x.isEmpty) =
      l.map encodeRecord := by
    rw [List.filter_eq_self]
    intro a ha
    rcases List.mem_map.mp ha with ⟨e, -, rfl⟩
    simpa using encodeRecord_ne_nil e
  rw [h1]
  simp [List.filter]

/-- Claim C6: On a non-empty schedule (and an existing output directory),
`save_to_jsonl` writes the file `COE_Bidding_Schedule_<year>.jsonl` —
`<year>` the calendar year of the first record's start timestamp — under
the output directory, whose contents hold exactly one JSON-encoded line
per record in the schedule's original order, and returns the written
path. -/
theorem save_to_jsonl_spec (sd : ScheduleResponse) (dir : String) (fs : FS)
    (first_entry : BiddingExercise) (rest : List BiddingExercise)
    (hsched : sd.schedule = first_entry :: rest)
    (hdir : dirExists fs dir = true) :
    save_to_jsonl (some sd) dir fs =
      .ok (some (os_path_join dir ("COE_Bidding_Schedule_" ++
            toString first_entry.exercise_start_datetime.year ++ ".jsonl")),
        fsWrite fs
          (os_path_join dir ("COE_Bidding_Schedule_" ++
            toString first_entry.exercise_start_datetime.year ++ ".jsonl"))
          ⟨encodeFile sd.schedule⟩) ∧
    (splitNl (encodeFile sd.schedule)).filter (fun x => !x.isEmpty) =
      sd.schedule.map encodeRecord := by
  constructor
  · simp [save_to_jsonl, hsched, hdir]
  · exact encodeFile_lines sd.schedule

/-- Concrete record used to instantiate the serializer theorems. -/
def sampleExercise : BiddingExercise :=
  ⟨"2025-03", ⟨2025, "2025-03-01T00:00:00+08:00"⟩,
    ⟨2025, "2025-03-07T23:59:59+08:00"⟩⟩

/-- Concrete instantiation of `save_to_jsonl_spec`. -/
theorem save_to_jsonl_spec_witness :
    save_to_jsonl (some ⟨[sampleExercise]⟩) "data" ⟨["data"], []⟩ =
      .ok (some (os_path_join "data" ("COE_Bidding_Schedule_" ++
            toString (2025 : Nat) ++ ".jsonl")),
        fsWrite ⟨["data"], []⟩
          (os_path_join "data" ("COE_Bidding_Schedule_" ++
            toString (2025 : Nat) ++ ".jsonl"))
          ⟨encodeFile [sampleExercise]⟩) ∧
    (splitNl (encodeFile [sampleExercise])).filter (fun x => !x.isEmpty) =
      [sampleExercise].map encodeRecord :=
  save_to_jsonl_spec ⟨[sampleExercise]⟩ "data" ⟨["data"], []⟩
    sampleExercise [] rfl (by decide)

/-- Claim C5: Round trip: for every schedule with at least one record,
serializing through `save_to_jsonl` and re-parsing the written file
yields exactly the original `month`, start and end values, the
timestamps compared by their ISO-8601 textual rendering. -/
theorem save_to_jsonl_roundtrip (sd : ScheduleResponse) (dir : String)
    (fs : FS) (hne : sd.schedule ≠ []) (hdir : dirExists fs dir = true) :
    ∃ p fs', save_to_jsonl (some sd) dir fs = .ok (some p, fs') ∧
      fs'.files.lookup p = some ⟨encodeFile sd.schedule⟩ ∧
      parseJsonlFile ⟨encodeFile sd.schedule⟩ =
        some (sd.schedule.map fun e =>
          (e.month, e.exercise_start_datetime.iso,
            e.exercise_end_datetime.iso)) := by
  obtain ⟨first_entry, rest, hs⟩ := List.exists_cons_of_ne_nil hne
  refine ⟨_, _, ((save_to_jsonl_spec sd dir fs first_entry rest hs hdir).1), ?_, ?_⟩
  · simp [fsWrite, List.lookup]
  · exact parseJsonlFile_encodeFile sd.schedule

/-- Concrete instantiation of `save_to_jsonl_roundtrip`. -/
theorem save_to_jsonl_roundtrip_witness :
    ∃ p fs', save_to_jsonl (some ⟨[sampleExercise]⟩) "data" ⟨["data"], []⟩ =
        .ok (some p, fs') ∧
      fs'.files.lookup p = some ⟨encodeFile [sampleExercise]⟩ ∧
      parseJsonlFile ⟨encodeFile [sampleExercise]⟩ =
        some ([sampleExercise].map fun e =>
          (e.month, e.exercise_start_datetime.iso,
            e.exercise_end_datetime.iso)) :=
  save_to_jsonl_roundtrip ⟨[sampleExercise]⟩ "data" ⟨["data"], []⟩
    (by decide) (by decide)

/-- Claim C8: On an absent response or an empty record list, `save_to_jsonl`
returns no path and leaves the filesystem untouched — a normal skip, not
an error. -/
theorem save_to_jsonl_empty (sd : Option ScheduleResponse) (dir : String)
    (fs : FS)
    (h : sd = none ∨ ∃ r, sd = some r ∧ r.schedule = []) :
    save_to_jsonl sd dir fs = .ok (none, fs) := by
  rcases h with rfl | ⟨r, rfl, hr⟩
  · rfl
  · simp [save_to_jsonl, hr]

/-- Concrete instantiation of `save_to_jsonl_empty`. -/
theorem save_to_jsonl_empty_witness :
    save_to_jsonl none "data" ⟨[], []⟩ = .ok (none, ⟨[], []⟩) ∧
    save_to_jsonl (some ⟨[]⟩) "data" ⟨[], []⟩ = .ok (none, ⟨[], []⟩) :=
  ⟨save_to_jsonl_empty none "data" ⟨[], []⟩ (Or.inl rfl),
    save_to_jsonl_empty (some ⟨[]⟩) "data" ⟨[], []⟩
      (Or.inr ⟨⟨[]⟩, rfl, rfl⟩)⟩

/-- Claim C7, counterexample: The serializer itself does not create the
output directory: saving a non-empty schedule to an absent directory
fails (the `open` raises) instead of creating the directory and
succeeding. -/
theorem save_to_jsonl_missing_dir_fails :
    save_to_jsonl (some ⟨[sampleExercise]⟩) "data" ⟨[], []⟩ =
      .error .dirNotFound := by
  rfl

/-- Claim C7, amended: The output directory is created not by the
serializer but by the extractor CLI `main`, which runs
`os.makedirs(output_dir, exist_ok=True)` before calling the serializer;
through that path a non-empty schedule is saved successfully even when
the directory did not exist. -/
theorem extractor_main_creates_dir (r : ScheduleResponse) (dir : String)
    (fs : FS) (first_entry : BiddingExercise) (rest : List BiddingExercise)
    (hsched : r.schedule = first_entry :: rest) :
    ∃ p fs', extractor_main_save (some r) dir fs = .ok (some p, fs') := by
  unfold extractor_main_save
  have hdir : dirExists (fsMakedirs fs dir) dir = true := by
    simp [dirExists, fsMakedirs]
  exact ⟨_, _, (save_to_jsonl_spec r dir (fsMakedirs fs dir)
    first_entry rest hsched hdir).1⟩

/-- Concrete instantiation of `extractor_main_creates_dir`. -/
theorem extractor_main_creates_dir_witness :
    ∃ p fs', extractor_main_save (some ⟨[sampleExercise]⟩) "data" ⟨[], []⟩ =
      .ok (some p, fs') :=
  extractor_main_creates_dir ⟨[sampleExercise]⟩ "data" ⟨[], []⟩
    sampleExercise [] rfl
